import Mathlib

/-!
Shallow embedding of the SET card game engine (`set.py`): the card model,
the set-detection functions, the board-replacement routine, and the
"playing" portion of the event-driven state machine.  The asset folder
(`kaarten/`) that `load_cards_from_folder` reads is not part of the source
tree, so the deck contents are modelled from the spec where needed.
-/

namespace SetGame

/-- The three card colors, as produced by `Card.from_filename`. -/
inductive Color
  | red
  | green
  | purple
  deriving DecidableEq

/-- The three card symbols. -/
inductive Symbol
  | diamond
  | squiggle
  | oval
  deriving DecidableEq

/-- The three card shadings. -/
inductive Shading
  | empty
  | filled
  | shaded
  deriving DecidableEq

/-- `class Card`: four attributes plus the original filename.  `number` is a
Python `int`, embedded as `Int`. -/
structure Card where
  color : Color
  symbol : Symbol
  shading : Shading
  number : Int
  filename : String
  deriving DecidableEq

/-- The dictionary `colors = {'red': 0, 'green': 1, 'purple': 2}` in
`Card.as_vector`. -/
def colorIdx : Color → Int
  | .red => 0
  | .green => 1
  | .purple => 2

/-- The dictionary `symbols = {'diamond': 0, 'squiggle': 1, 'oval': 2}`. -/
def symbolIdx : Symbol → Int
  | .diamond => 0
  | .squiggle => 1
  | .oval => 2

/-- The dictionary `shadings = {'empty': 0, 'filled': 1, 'shaded': 2}`. -/
def shadingIdx : Shading → Int
  | .empty => 0
  | .filled => 1
  | .shaded => 2

/-- `Card.as_vector`: the 4-tuple
`(colors[self.color], symbols[self.symbol], shadings[self.shading], self.number - 1)`,
embedded as a list of length 4 so that the `v[i]` indexing of `is_set` can be
expressed uniformly. -/
def Card.as_vector (c : Card) : List Int :=
  [colorIdx c.color, symbolIdx c.symbol, shadingIdx c.shading, c.number - 1]

/-- `is_set(card1, card2, card3)`: for each of the 4 attribute positions the
three values, collected into a set (here: `List.dedup`), must have exactly 1
or exactly 3 distinct elements.  The Python loop returns `False` at the first
failing position, which is `List.all` over `range 4`. -/
def is_set (card1 card2 card3 : Card) : Bool :=
  let vectors := [card1.as_vector, card2.as_vector, card3.as_vector]
  (List.range 4).all fun i =>
    let values := (vectors.map fun v => v.getD i 0).dedup
    values.length == 1 || values.length == 3

/-- The sequence of index triples `(i, j, k)` visited by the nested loops
`for i in range(n): for j in range(i+1, n): for k in range(j+1, n)` of
`find_one_set` and `find_all_sets`, in visiting (lexicographic) order. -/
def triples (n : Nat) : List (Nat × Nat × Nat) :=
  (List.range n).flatMap fun i =>
    (List.range' (i + 1) (n - (i + 1))).flatMap fun j =>
      (List.range' (j + 1) (n - (j + 1))).map fun k => (i, j, k)

/-- Stand-in card for out-of-range list indexing.  All loop indices are in
bounds, so this value is never consulted (Python would raise `IndexError`). -/
def default_card : Card :=
  ⟨.red, .diamond, .empty, 1, ""⟩

/-- `find_one_set(cards)`: the nested loops return the first triple `(i,j,k)`
(in the order enumerated by `triples`) whose cards satisfy `is_set`, and
`None` when the loops finish without returning. -/
def find_one_set (cards : List Card) : Option (Nat × Nat × Nat) :=
  (triples cards.length).find? fun t =>
    is_set (cards.getD t.1 default_card) (cards.getD t.2.1 default_card)
      (cards.getD t.2.2 default_card)

/-- `find_all_sets(cards)`: the same loops, appending every qualifying triple
to the result list instead of returning early. -/
def find_all_sets (cards : List Card) : List (Nat × Nat × Nat) :=
  (triples cards.length).filter fun t =>
    is_set (cards.getD t.1 default_card) (cards.getD t.2.1 default_card)
      (cards.getD t.2.2 default_card)

/-- `replace_cards(indices)` acting on the closure variables
`displayed_cards` (the board) and `remaining_deck`: for each index in order,
pop the front of the deck into that slot if the deck is non-empty, else set
the slot to `None`.  Python's `displayed_cards[idx] = ...` assumes `idx` is in
range; `List.set` is a no-op out of range, so theorems carry explicit bounds. -/
def replace_cards (board : List (Option Card)) (deck : List Card) :
    List Nat → List (Option Card) × List Card
  | [] => (board, deck)
  | idx :: rest =>
    match deck with
    | [] => replace_cards (board.set idx none) [] rest
    | c :: deck2 => replace_cards (board.set idx (some c)) deck2 rest

/-- The mutable game variables of `main` that the "playing" handlers touch. -/
structure GState where
  displayed_cards : List (Option Card)
  remaining_deck : List Card
  selected_cards : List Nat
  player_score : Nat
  computer_score : Nat
  timer : Int
  home_timer : Int
  deriving DecidableEq

/-- `[card for card in displayed_cards if card is not None]`. -/
def filtered_cards (board : List (Option Card)) : List Card :=
  board.filterMap id

/-- The `pygame.USEREVENT` (one-second tick) handler in the `"playing"`
state: decrement `timer`; if it is now `<= 0`, run the computer move —
`find_one_set` on the non-`None` cards; on success increment
`computer_score` and `replace_cards(found_set)`, otherwise
`replace_cards([0, 1, 2])` — and reset `timer` to `home_timer`. -/
def tick_update (s : GState) : GState :=
  let t := s.timer - 1
  if t ≤ 0 then
    match find_one_set (filtered_cards s.displayed_cards) with
    | some (i, j, k) =>
      let bd := replace_cards s.displayed_cards s.remaining_deck [i, j, k]
      { s with displayed_cards := bd.1, remaining_deck := bd.2,
               computer_score := s.computer_score + 1, timer := s.home_timer }
    | none =>
      let bd := replace_cards s.displayed_cards s.remaining_deck [0, 1, 2]
      { s with displayed_cards := bd.1, remaining_deck := bd.2,
               timer := s.home_timer }
  else
    { s with timer := t }

/-- The card stored in board slot `i`, with `default_card` standing in for a
slot that Python could not dereference (the callers guard against that). -/
def card_at (board : List (Option Card)) (i : Nat) : Card :=
  (board.getD i none).getD default_card

/-- The `pygame.MOUSEBUTTONDOWN` handler in the `"playing"` state, after the
input layer has translated the pointer position to `clicked_index`: if the
index is in range and the slot holds a card, toggle it in `selected_cards`
(remove first occurrence if present, append if absent); if the selection now
has length 3, evaluate `is_set` on the three selected cards — on success
increment `player_score`, `replace_cards(selected_cards)` and reset the
timer — and clear the selection either way. -/
def click_update (s : GState) (clicked_index : Nat) : GState :=
  if clicked_index < s.displayed_cards.length ∧
      (s.displayed_cards.getD clicked_index none).isSome then
    let sel :=
      if clicked_index ∈ s.selected_cards then
        s.selected_cards.erase clicked_index
      else
        s.selected_cards ++ [clicked_index]
    if sel.length = 3 then
      let c1 := card_at s.displayed_cards (sel.getD 0 0)
      let c2 := card_at s.displayed_cards (sel.getD 1 0)
      let c3 := card_at s.displayed_cards (sel.getD 2 0)
      if is_set c1 c2 c3 then
        let bd := replace_cards s.displayed_cards s.remaining_deck sel
        { s with displayed_cards := bd.1, remaining_deck := bd.2,
                 player_score := s.player_score + 1, timer := s.home_timer,
                 selected_cards := [] }
      else
        { s with selected_cards := [] }
    else
      { s with selected_cards := sel }
  else
    s

/-- The game-over test run after each processed event while `"playing"`:
`not find_all_sets([...non-None cards...]) and not remaining_deck`. -/
def end_check (s : GState) : Bool :=
  (find_all_sets (filtered_cards s.displayed_cards)).isEmpty &&
    s.remaining_deck.isEmpty

/-- The values of the `game_state` string that matter here. -/
inductive Status
  | home
  | playing
  | ended
  deriving DecidableEq

/-- The two event kinds handled in the `"playing"` state (with the pointer
position already translated to a board index by the input layer). -/
inductive GameEvent
  | tick
  | click (clicked_index : Nat)

/-- One processed event in the `"playing"` state: run the matching handler,
then the end check, which moves `game_state` to `"end"` when it fires. -/
def playing_step (s : GState) (e : GameEvent) : Status × GState :=
  let s2 := match e with
    | .tick => tick_update s
    | .click idx => click_update s idx
  (if end_check s2 then .ended else .playing, s2)

/-! ### The deck (modelled from the spec)

`load_cards_from_folder` builds the deck by parsing the filenames found in
the `kaarten/` asset folder, which is not part of the source tree.  The data
below models that folder from the spec: one card per combination of the three
3-valued attributes and a number 1-3, with a filename following the naming
convention that `Card.from_filename` parses (color, symbol, shading and
number concatenated, with a `.gif` suffix). -/

/-- The three color values. -/
def all_colors : List Color := [.red, .green, .purple]

/-- The three symbol values. -/
def all_symbols : List Symbol := [.diamond, .squiggle, .oval]

/-- The three shading values. -/
def all_shadings : List Shading := [.empty, .filled, .shaded]

/-- The three number values. -/
def all_numbers : List Int := [1, 2, 3]

/-- The color fragment of a filename. -/
def colorName : Color → String
  | .red => "red"
  | .green => "green"
  | .purple => "purple"

/-- The symbol fragment of a filename. -/
def symbolName : Symbol → String
  | .diamond => "diamond"
  | .squiggle => "squiggle"
  | .oval => "oval"

/-- The shading fragment of a filename. -/
def shadingName : Shading → String
  | .empty => "empty"
  | .filled => "filled"
  | .shaded => "shaded"

/-- The number fragment of a filename. -/
def numberName (n : Int) : String :=
  if n = 1 then "1" else if n = 2 then "2" else "3"

/-- The filename of the asset holding a given attribute combination, per the
naming convention of `Card.from_filename` (e.g. `redsquiggleempty3.gif`). -/
def card_filename (col : Color) (sym : Symbol) (shd : Shading) (n : Int) :
    String :=
  colorName col ++ symbolName sym ++ shadingName shd ++ numberName n ++ ".gif"

/-- Modelled from the spec: the deck produced by `load_cards_from_folder` on
the (absent) `kaarten/` folder — exactly one card per combination of the
three 3-valued attributes and number 1-3, 81 cards in all. -/
def build_deck : List Card :=
  all_colors.flatMap fun col =>
    all_symbols.flatMap fun sym =>
      all_shadings.flatMap fun shd =>
        all_numbers.map fun n => ⟨col, sym, shd, n, card_filename col sym shd n⟩

/-! ### Proof devices -/

/-- The unique color completing `x` and `y` to an all-equal or all-distinct
triple. -/
def third_color : Color → Color → Color := fun x y =>
  if x = y then x
  else if x ≠ .red ∧ y ≠ .red then .red
  else if x ≠ .green ∧ y ≠ .green then .green
  else .purple

/-- The unique symbol completing `x` and `y`. -/
def third_symbol : Symbol → Symbol → Symbol := fun x y =>
  if x = y then x
  else if x ≠ .diamond ∧ y ≠ .diamond then .diamond
  else if x ≠ .squiggle ∧ y ≠ .squiggle then .squiggle
  else .oval

/-- The unique shading completing `x` and `y`. -/
def third_shading : Shading → Shading → Shading := fun x y =>
  if x = y then x
  else if x ≠ .empty ∧ y ≠ .empty then .empty
  else if x ≠ .filled ∧ y ≠ .filled then .filled
  else .shaded

/-- The unique number in 1-3 completing `x` and `y`. -/
def third_number (x y : Int) : Int :=
  if x = y then x else 6 - x - y

/-- The unique card completing two deck cards to a valid set. -/
def third_card (a b : Card) : Card :=
  ⟨third_color a.color b.color, third_symbol a.symbol b.symbol,
    third_shading a.shading b.shading, third_number a.number b.number,
    card_filename (third_color a.color b.color) (third_symbol a.symbol b.symbol)
      (third_shading a.shading b.shading) (third_number a.number b.number)⟩

/-- Strict lexicographic order on index triples, the order in which the
nested loops of `find_one_set` and `find_all_sets` visit them. -/
def lex3 (s t : Nat × Nat × Nat) : Prop :=
  s.1 < t.1 ∨ (s.1 = t.1 ∧ (s.2.1 < t.2.1 ∨ (s.2.1 = t.2.1 ∧ s.2.2 < t.2.2)))

/-! ### Concrete cards for witnesses and counterexamples -/

/-- A concrete deck card: red diamond, empty shading, number 1. -/
def cardA : Card := ⟨.red, .diamond, .empty, 1, card_filename .red .diamond .empty 1⟩

/-- A concrete deck card: green squiggle, filled shading, number 2. -/
def cardB : Card := ⟨.green, .squiggle, .filled, 2, card_filename .green .squiggle .filled 2⟩

/-- A concrete deck card: purple oval, shaded shading, number 3.  Together
with `cardA` and `cardB` it forms a valid set (all four attributes pairwise
distinct). -/
def cardC : Card := ⟨.purple, .oval, .shaded, 3, card_filename .purple .oval .shaded 3⟩

/-- A concrete deck card: red oval, filled shading, number 1.  It forms no
set with `cardA, cardB` or with `cardA, cardC`. -/
def cardD : Card := ⟨.red, .oval, .filled, 1, card_filename .red .oval .filled 1⟩

/-- A concrete deck card: green diamond, shaded shading, number 1. -/
def cardE : Card := ⟨.green, .diamond, .shaded, 1, card_filename .green .diamond .shaded 1⟩

/-- A playing state one second before the tick fires, whose board has an
`Empty` slot 0 in front of a valid set in slots 1-3, with the deck
exhausted. -/
def c2state : GState :=
  ⟨[none, some cardA, some cardB, some cardC], [], [], 0, 0, 1, 5⟩

/-- A playing state one second before the tick fires, with a full 3-slot
board holding a valid set and one card left in the deck. -/
def c2wstate : GState :=
  ⟨[some cardA, some cardB, some cardC], [cardD], [], 0, 0, 1, 9⟩

/-! ### Helper lemmas about `is_set` -/

/-- `is_set` spelled out as a condition on each of the four positions. -/
lemma is_set_iff_positions (a b c : Card) :
    is_set a b c = true ↔
      ∀ i, i < 4 →
        ([a.as_vector.getD i 0, b.as_vector.getD i 0,
            c.as_vector.getD i 0].dedup.length = 1 ∨
         [a.as_vector.getD i 0, b.as_vector.getD i 0,
            c.as_vector.getD i 0].dedup.length = 3) := by
  simp [is_set, List.all_eq_true, List.mem_range]

/-- Permuting the three listed values does not change the distinct count. -/
lemma dedup_length_swap_left (x y z : Int) :
    [x, y, z].dedup.length = [y, x, z].dedup.length :=
  (List.Perm.dedup (List.Perm.swap y x [z])).length_eq

/-- Permuting the last two listed values does not change the distinct count. -/
lemma dedup_length_swap_right (x y z : Int) :
    [x, y, z].dedup.length = [x, z, y].dedup.length :=
  (List.Perm.dedup (List.Perm.cons x (List.Perm.swap z y []))).length_eq

/-- Exchanging the first two arguments of `is_set`. -/
lemma is_set_swap_left (a b c : Card) : is_set a b c = is_set b a c := by
  have h : ∀ p q : Bool, (p = true ↔ q = true) → p = q := by decide
  apply h
  rw [is_set_iff_positions, is_set_iff_positions]
  constructor <;> intro hp i hi <;>
    have := hp i hi <;>
    rw [dedup_length_swap_left] <;> simpa [dedup_length_swap_left] using this

/-- Exchanging the last two arguments of `is_set`. -/
lemma is_set_swap_right (a b c : Card) : is_set a b c = is_set a c b := by
  have h : ∀ p q : Bool, (p = true ↔ q = true) → p = q := by decide
  apply h
  rw [is_set_iff_positions, is_set_iff_positions]
  constructor <;> intro hp i hi <;>
    have := hp i hi <;>
    rw [dedup_length_swap_right] <;> simpa [dedup_length_swap_right] using this

/-! ### Helper lemmas about the triple enumeration -/

/-- `range' s n` (step 1) is strictly increasing. -/
lemma pairwise_lt_range_one (s n : Nat) :
    (List.range' s n).Pairwise (· < ·) := by
  induction n generalizing s with
  | zero => simp
  | succ n ih =>
    rw [List.range'_succ]
    exact List.Pairwise.cons
      (fun m hm => by have := List.mem_range'_1.mp hm; omega) (ih (s + 1))

/-- The triples enumerated by the nested loops are exactly those with
`i < j < k < n`. -/
lemma mem_triples {n : Nat} {t : Nat × Nat × Nat} :
    t ∈ triples n ↔ t.1 < t.2.1 ∧ t.2.1 < t.2.2 ∧ t.2.2 < n := by
  obtain ⟨i, j, k⟩ := t
  simp only [triples, List.mem_flatMap, List.mem_map, List.mem_range,
    List.mem_range'_1]
  constructor
  · rintro ⟨a, ha, b, hb, c0, hc, heq⟩
    cases heq
    refine ⟨by omega, by omega, by omega⟩
  · rintro ⟨h1, h2, h3⟩
    exact ⟨i, by omega, j, ⟨by omega, by omega⟩, k, ⟨by omega, by omega⟩, rfl⟩

/-- The nested loops visit the triples in strictly ascending lexicographic
order. -/
lemma triples_pairwise_lex3 (n : Nat) : (triples n).Pairwise lex3 := by
  rw [triples, List.pairwise_flatMap]
  constructor
  · intro i _
    rw [List.pairwise_flatMap]
    constructor
    · intro j _
      rw [List.pairwise_map]
      exact List.Pairwise.imp
        (fun h => Or.inr ⟨rfl, Or.inr ⟨rfl, h⟩⟩) (pairwise_lt_range_one _ _)
    · refine List.Pairwise.imp ?_ (pairwise_lt_range_one _ _)
      intro j1 j2 h x hx y hy
      simp only [List.mem_map] at hx hy
      obtain ⟨k1, _, rfl⟩ := hx
      obtain ⟨k2, _, rfl⟩ := hy
      exact Or.inr ⟨rfl, Or.inl h⟩
  · have hr : (List.range n).Pairwise (· < ·) := List.sorted_lt_range n
    refine List.Pairwise.imp ?_ hr
    intro i1 i2 h x hx y hy
    simp only [List.mem_flatMap, List.mem_map] at hx hy
    obtain ⟨j1, _, k1, _, rfl⟩ := hx
    obtain ⟨j2, _, k2, _, rfl⟩ := hy
    exact Or.inl h

/-- On a list sorted by `R`, `find?` returns an element that every other
match either equals or follows (in the `R` order). -/
lemma find?_first_of_pairwise {α : Type} {R : α → α → Prop} {p : α → Bool} :
    ∀ {l : List α}, l.Pairwise R → ∀ {t}, l.find? p = some t →
      ∀ x ∈ l, p x = true → x = t ∨ R t x := by
  intro l
  induction l with
  | nil =>
    intro _ t ht
    simp at ht
  | cons a l ih =>
    intro hp t hfind x hx hpx
    by_cases ha : p a = true
    · rw [List.find?_cons_of_pos _ ha] at hfind
      cases hfind
      rcases List.mem_cons.mp hx with rfl | hx2
      · exact Or.inl rfl
      · exact Or.inr (List.rel_of_pairwise_cons hp hx2)
    · rw [List.find?_cons_of_neg _ (by simpa using ha)] at hfind
      rcases List.mem_cons.mp hx with rfl | hx2
      · exact absurd hpx ha
      · exact ih hp.of_cons hfind x hx2 hpx

/-- The end check fires exactly when no sets remain and the deck is empty. -/
lemma end_check_iff (s2 : GState) :
    end_check s2 = true ↔
      find_all_sets (filtered_cards s2.displayed_cards) = [] ∧
        s2.remaining_deck = [] := by
  simp [end_check, List.isEmpty_iff]

/-- An early-returning scan is the head of the collecting scan. -/
lemma find?_eq_head?_filter {α : Type} (p : α → Bool) :
    ∀ l : List α, l.find? p = (l.filter p).head? := by
  intro l
  induction l with
  | nil => rfl
  | cons a l ih =>
    by_cases h : p a = true
    · rw [List.find?_cons_of_pos _ h, List.filter_cons_of_pos h]
      rfl
    · rw [List.find?_cons_of_neg _ (by simpa using h),
        List.filter_cons_of_neg (by simpa using h)]
      exact ih

/-! ### Helper lemmas about boards with no empty slot -/

/-- A board with no `Empty` slot is its own filtered card list (boxed). -/
lemma filtered_cards_all_isSome :
    ∀ (board : List (Option Card)), (∀ x ∈ board, x.isSome) →
      board = (filtered_cards board).map some
  | [], _ => rfl
  | o :: rest, h => by
    obtain ⟨a, rfl⟩ :=
      Option.isSome_iff_exists.mp (h o (List.mem_cons_self _ _))
    have hrest := filtered_cards_all_isSome rest
      (fun x hx => h x (List.mem_cons_of_mem _ hx))
    show some a :: rest = ((filtered_cards (some a :: rest)).map some)
    rw [show filtered_cards (some a :: rest) = a :: filtered_cards rest from rfl,
      List.map_cons, ← hrest]

/-- On a board with no `Empty` slot, index `i` of the filtered card list is
board slot `i`. -/
lemma board_slot_of_filtered (board : List (Option Card))
    (h : ∀ x ∈ board, x.isSome) {i : Nat}
    (hi : i < (filtered_cards board).length) :
    board[i]? = some (some ((filtered_cards board).getD i default_card)) := by
  conv_lhs => rw [filtered_cards_all_isSome board h]
  rw [List.getElem?_map, List.getElem?_eq_getElem hi]
  simp [List.getD_eq_getElem?_getD, List.getElem?_eq_getElem hi]

/-! ### Helper lemmas about the deck and the third card -/

/-- Every color is listed. -/
lemma color_mem_all (c : Color) : c ∈ all_colors := by
  cases c <;> simp [all_colors]

/-- Every symbol is listed. -/
lemma symbol_mem_all (c : Symbol) : c ∈ all_symbols := by
  cases c <;> simp [all_symbols]

/-- Every shading is listed. -/
lemma shading_mem_all (c : Shading) : c ∈ all_shadings := by
  cases c <;> simp [all_shadings]

/-- The deck holds the card of every attribute combination. -/
lemma build_deck_mem (col : Color) (sym : Symbol) (shd : Shading) {n : Int}
    (hn : n = 1 ∨ n = 2 ∨ n = 3) :
    (⟨col, sym, shd, n, card_filename col sym shd n⟩ : Card) ∈ build_deck := by
  simp only [build_deck, List.mem_flatMap, List.mem_map]
  exact ⟨col, color_mem_all col, sym, symbol_mem_all sym, shd,
    shading_mem_all shd, n,
    by rcases hn with rfl | rfl | rfl <;> simp [all_numbers], rfl⟩

/-- Every deck card has number 1-3 and the conventional filename. -/
lemma build_deck_shape {c : Card} (hc : c ∈ build_deck) :
    (c.number = 1 ∨ c.number = 2 ∨ c.number = 3) ∧
    c = ⟨c.color, c.symbol, c.shading, c.number,
          card_filename c.color c.symbol c.shading c.number⟩ := by
  simp only [build_deck, List.mem_flatMap, List.mem_map] at hc
  obtain ⟨col, _, sym, _, shd, _, n, hn, rfl⟩ := hc
  simp only [all_numbers, List.mem_cons, List.not_mem_nil, or_false] at hn
  exact ⟨hn, rfl⟩

/-- Deck cards agreeing on all four attributes are equal. -/
lemma build_deck_attr_inj {c1 c2 : Card} (h1 : c1 ∈ build_deck)
    (h2 : c2 ∈ build_deck) (hcol : c1.color = c2.color)
    (hsym : c1.symbol = c2.symbol) (hshd : c1.shading = c2.shading)
    (hnum : c1.number = c2.number) : c1 = c2 := by
  rw [(build_deck_shape h1).2, (build_deck_shape h2).2, hcol, hsym, hshd, hnum]

/-- Position check on the color coordinate: the third value is forced. -/
lemma third_color_spec (x y z : Color) :
    ([colorIdx x, colorIdx y, colorIdx z].dedup.length = 1 ∨
     [colorIdx x, colorIdx y, colorIdx z].dedup.length = 3) ↔
      z = third_color x y := by
  cases x <;> cases y <;> cases z <;> decide

/-- Position check on the symbol coordinate: the third value is forced. -/
lemma third_symbol_spec (x y z : Symbol) :
    ([symbolIdx x, symbolIdx y, symbolIdx z].dedup.length = 1 ∨
     [symbolIdx x, symbolIdx y, symbolIdx z].dedup.length = 3) ↔
      z = third_symbol x y := by
  cases x <;> cases y <;> cases z <;> decide

/-- Position check on the shading coordinate: the third value is forced. -/
lemma third_shading_spec (x y z : Shading) :
    ([shadingIdx x, shadingIdx y, shadingIdx z].dedup.length = 1 ∨
     [shadingIdx x, shadingIdx y, shadingIdx z].dedup.length = 3) ↔
      z = third_shading x y := by
  cases x <;> cases y <;> cases z <;> decide

/-- Position check on the number coordinate (numbers 1-3): the third value
is forced. -/
lemma third_number_spec {x y z : Int} (hx : x = 1 ∨ x = 2 ∨ x = 3)
    (hy : y = 1 ∨ y = 2 ∨ y = 3) (hz : z = 1 ∨ z = 2 ∨ z = 3) :
    ([x - 1, y - 1, z - 1].dedup.length = 1 ∨
     [x - 1, y - 1, z - 1].dedup.length = 3) ↔ z = third_number x y := by
  rcases hx with rfl | rfl | rfl <;> rcases hy with rfl | rfl | rfl <;>
    rcases hz with rfl | rfl | rfl <;> decide

/-- The third number of two numbers 1-3 is again 1-3. -/
lemma third_number_range {x y : Int} (hx : x = 1 ∨ x = 2 ∨ x = 3)
    (hy : y = 1 ∨ y = 2 ∨ y = 3) :
    third_number x y = 1 ∨ third_number x y = 2 ∨ third_number x y = 3 := by
  rcases hx with rfl | rfl | rfl <;> rcases hy with rfl | rfl | rfl <;> decide

/-- For deck cards, `is_set` holds exactly when the third card's attributes
complete the first two. -/
lemma is_set_iff_third {a b c : Card}
    (ha : a.number = 1 ∨ a.number = 2 ∨ a.number = 3)
    (hb : b.number = 1 ∨ b.number = 2 ∨ b.number = 3)
    (hc : c.number = 1 ∨ c.number = 2 ∨ c.number = 3) :
    is_set a b c = true ↔
      (c.color = third_color a.color b.color ∧
       c.symbol = third_symbol a.symbol b.symbol ∧
       c.shading = third_shading a.shading b.shading ∧
       c.number = third_number a.number b.number) := by
  rw [is_set_iff_positions]
  constructor
  · intro hp
    refine ⟨?_, ?_, ?_, ?_⟩
    · exact (third_color_spec a.color b.color c.color).mp
        (by simpa [Card.as_vector] using hp 0 (by omega))
    · exact (third_symbol_spec a.symbol b.symbol c.symbol).mp
        (by simpa [Card.as_vector] using hp 1 (by omega))
    · exact (third_shading_spec a.shading b.shading c.shading).mp
        (by simpa [Card.as_vector] using hp 2 (by omega))
    · exact (third_number_spec ha hb hc).mp
        (by simpa [Card.as_vector] using hp 3 (by omega))
  · rintro ⟨h1, h2, h3, h4⟩ i hi
    have hcases : i = 0 ∨ i = 1 ∨ i = 2 ∨ i = 3 := by omega
    rcases hcases with rfl | rfl | rfl | rfl
    · simpa [Card.as_vector] using
        (third_color_spec a.color b.color c.color).mpr h1
    · simpa [Card.as_vector] using
        (third_symbol_spec a.symbol b.symbol c.symbol).mpr h2
    · simpa [Card.as_vector] using
        (third_shading_spec a.shading b.shading c.shading).mpr h3
    · simpa [Card.as_vector] using (third_number_spec ha hb hc).mpr h4

/-- If the first color already completes the pair, the pair was equal. -/
lemma third_color_fixed_left {x y : Color} (h : x = third_color x y) :
    x = y := by
  revert h
  cases x <;> cases y <;> decide

/-- If the second color already completes the pair, the pair was equal. -/
lemma third_color_fixed_right {x y : Color} (h : y = third_color x y) :
    x = y := by
  revert h
  cases x <;> cases y <;> decide

/-- If the first symbol already completes the pair, the pair was equal. -/
lemma third_symbol_fixed_left {x y : Symbol} (h : x = third_symbol x y) :
    x = y := by
  revert h
  cases x <;> cases y <;> decide

/-- If the second symbol already completes the pair, the pair was equal. -/
lemma third_symbol_fixed_right {x y : Symbol} (h : y = third_symbol x y) :
    x = y := by
  revert h
  cases x <;> cases y <;> decide

/-- If the first shading already completes the pair, the pair was equal. -/
lemma third_shading_fixed_left {x y : Shading} (h : x = third_shading x y) :
    x = y := by
  revert h
  cases x <;> cases y <;> decide

/-- If the second shading already completes the pair, the pair was equal. -/
lemma third_shading_fixed_right {x y : Shading} (h : y = third_shading x y) :
    x = y := by
  revert h
  cases x <;> cases y <;> decide

/-- If the first number already completes the pair, the pair was equal. -/
lemma third_number_fixed_left {x y : Int} (hx : x = 1 ∨ x = 2 ∨ x = 3)
    (hy : y = 1 ∨ y = 2 ∨ y = 3) (h : x = third_number x y) : x = y := by
  rcases hx with rfl | rfl | rfl <;> rcases hy with rfl | rfl | rfl <;>
    revert h <;> decide

/-- If the second number already completes the pair, the pair was equal. -/
lemma third_number_fixed_right {x y : Int} (hx : x = 1 ∨ x = 2 ∨ x = 3)
    (hy : y = 1 ∨ y = 2 ∨ y = 3) (h : y = third_number x y) : x = y := by
  rcases hx with rfl | rfl | rfl <;> rcases hy with rfl | rfl | rfl <;>
    revert h <;> decide

/-! ### Claim theorems -/

/-- Counterexample to C2 as stated: in `c2state` the timer is about to reach
0, slot 0 is `Empty`, slots 1-3 hold the valid set `cardA, cardB, cardC`, and
the deck is empty.  `find_one_set` (run on the filtered cards) returns
`(0, 1, 2)`, and the code replaces board slots 0, 1, 2 — so the computer
scores, yet slot 3, which holds the found card `cardC`, is NOT replaced
(the claim demands all three found-card slots be replaced, which here, with
an empty deck, would leave the board all `Empty`). -/
theorem c2_counterexample :
    find_one_set (filtered_cards c2state.displayed_cards) = some (0, 1, 2) ∧
    c2state.displayed_cards.getD 1 none = some cardA ∧
    c2state.displayed_cards.getD 2 none = some cardB ∧
    c2state.displayed_cards.getD 3 none = some cardC ∧
    (tick_update c2state).computer_score = c2state.computer_score + 1 ∧
    (tick_update c2state).displayed_cards = [none, none, none, some cardC] ∧
    ¬(tick_update c2state).displayed_cards = [none, none, none, none] := by
  decide

/-- C2 (amended): when the timer reaches 0, if `find_one_set` on the
filtered non-empty board cards returns indices `(i, j, k)`, the computer
score is incremented and board slots `i, j, k` — indices into the filtered
list, applied directly to the board, which hold the found cards whenever the
board has no `Empty` slot — are replaced; if it returns nothing, slots
0, 1, 2 are replaced and the score is unchanged; in both cases the timer
resets to `home_timer`. -/
theorem c2_amended_tick_behavior (s : GState) (h : s.timer = 1) :
    (∀ i j k,
      find_one_set (filtered_cards s.displayed_cards) = some (i, j, k) →
      (tick_update s).computer_score = s.computer_score + 1 ∧
      (tick_update s).displayed_cards =
        (replace_cards s.displayed_cards s.remaining_deck [i, j, k]).1 ∧
      (tick_update s).remaining_deck =
        (replace_cards s.displayed_cards s.remaining_deck [i, j, k]).2 ∧
      (tick_update s).timer = s.home_timer ∧
      ((∀ x ∈ s.displayed_cards, x.isSome) →
        s.displayed_cards[i]? =
          some (some ((filtered_cards s.displayed_cards).getD i default_card)) ∧
        s.displayed_cards[j]? =
          some (some ((filtered_cards s.displayed_cards).getD j default_card)) ∧
        s.displayed_cards[k]? =
          some (some ((filtered_cards s.displayed_cards).getD k default_card)))) ∧
    (find_one_set (filtered_cards s.displayed_cards) = none →
      (tick_update s).computer_score = s.computer_score ∧
      (tick_update s).displayed_cards =
        (replace_cards s.displayed_cards s.remaining_deck [0, 1, 2]).1 ∧
      (tick_update s).remaining_deck =
        (replace_cards s.displayed_cards s.remaining_deck [0, 1, 2]).2 ∧
      (tick_update s).timer = s.home_timer) := by
  have ht : s.timer - 1 ≤ 0 := by omega
  constructor
  · intro i j k hf
    have hb : i < j ∧ j < k ∧ k < (filtered_cards s.displayed_cards).length :=
      mem_triples.mp (List.mem_of_find?_eq_some hf)
    have hrun : tick_update s =
        { s with
          displayed_cards :=
            (replace_cards s.displayed_cards s.remaining_deck [i, j, k]).1,
          remaining_deck :=
            (replace_cards s.displayed_cards s.remaining_deck [i, j, k]).2,
          computer_score := s.computer_score + 1, timer := s.home_timer } := by
      simp only [tick_update]
      rw [if_pos ht, hf]
    refine ⟨by rw [hrun], by rw [hrun], by rw [hrun], by rw [hrun], ?_⟩
    intro hall
    exact ⟨board_slot_of_filtered _ hall (by omega),
      board_slot_of_filtered _ hall (by omega),
      board_slot_of_filtered _ hall hb.2.2⟩
  · intro hf
    have hrun : tick_update s =
        { s with
          displayed_cards :=
            (replace_cards s.displayed_cards s.remaining_deck [0, 1, 2]).1,
          remaining_deck :=
            (replace_cards s.displayed_cards s.remaining_deck [0, 1, 2]).2,
          timer := s.home_timer } := by
      simp only [tick_update]
      rw [if_pos ht, hf]
    exact ⟨by rw [hrun], by rw [hrun], by rw [hrun], by rw [hrun]⟩

/-- Witness for the amended C2: in `c2wstate` (full board `cardA, cardB,
cardC`, deck `[cardD]`, timer about to reach 0) the computer finds the set
`(0, 1, 2)`, scores, slot 0 is refilled with `cardD`, slots 1 and 2 become
`Empty`, and the timer resets. -/
theorem c2_amended_witness :
    (tick_update c2wstate).computer_score = 1 ∧
    (tick_update c2wstate).displayed_cards = [some cardD, none, none] ∧
    (tick_update c2wstate).remaining_deck = [] ∧
    (tick_update c2wstate).timer = 9 := by
  have h := (c2_amended_tick_behavior c2wstate rfl).1 0 1 2 (by decide)
  exact ⟨h.1, h.2.1.trans (by decide), h.2.2.1.trans (by decide), h.2.2.2.1⟩

/-- C1: `is_set(a, b, c)` returns true precisely when, at each of the four
positions of the cards' vector representations, the number of distinct values
among the three cards is exactly 1 or exactly 3. -/
theorem c1_is_set_characterization (a b c : Card) :
    is_set a b c = true ↔
      ∀ i : Fin 4,
        ({a.as_vector.getD (i : Nat) 0, b.as_vector.getD (i : Nat) 0,
            c.as_vector.getD (i : Nat) 0} : Finset Int).card = 1 ∨
        ({a.as_vector.getD (i : Nat) 0, b.as_vector.getD (i : Nat) 0,
            c.as_vector.getD (i : Nat) 0} : Finset Int).card = 3 := by
  have key : ∀ x y z : Int,
      ({x, y, z} : Finset Int).card = [x, y, z].dedup.length := by
    intro x y z
    have h : ([x, y, z] : List Int).toFinset = {x, y, z} := by simp
    rw [← h, List.card_toFinset]
  rw [is_set_iff_positions]
  constructor
  · intro hp i
    simp only [key]
    exact hp (i : Nat) i.isLt
  · intro hp i hi
    have := hp ⟨i, hi⟩
    simp only [key] at this
    exact this

/-- C8: `is_set` is invariant under every permutation of its three
arguments. -/
theorem c8_is_set_permutation_invariant (a b c : Card) :
    is_set a b c = is_set a c b ∧ is_set a b c = is_set b a c ∧
    is_set a b c = is_set b c a ∧ is_set a b c = is_set c a b ∧
    is_set a b c = is_set c b a := by
  refine ⟨is_set_swap_right a b c, is_set_swap_left a b c, ?_, ?_, ?_⟩
  · rw [is_set_swap_left, is_set_swap_right]
  · rw [is_set_swap_right, is_set_swap_left]
  · rw [is_set_swap_left a b c, is_set_swap_right b a c, is_set_swap_left b c a]

/-- C3: `replace_cards` processes its indices in order and independently:
the `j`-th index receives the `j`-th deck card when the deck still has one
(`deck[j]?` is `some`), and `Empty` (`none`) otherwise; untouched slots keep
their contents; the deck loses one card per processed index. -/
theorem c3_replace_processes_indices_in_order (board : List (Option Card))
    (deck : List Card) (indices : List Nat) (hnd : indices.Nodup)
    (hbound : ∀ i ∈ indices, i < board.length) :
    (∀ j, j < indices.length →
      ((replace_cards board deck indices).1)[indices.getD j 0]? = some deck[j]?) ∧
    (∀ m, m < board.length → m ∉ indices →
      ((replace_cards board deck indices).1)[m]? = board[m]?) ∧
    (replace_cards board deck indices).2 = deck.drop indices.length := by
  induction indices generalizing board deck with
  | nil =>
    refine ⟨fun j hj => absurd hj (by simp), fun m hm _ => rfl, rfl⟩
  | cons idx rest ih =>
    have hidx : idx < board.length := hbound idx (by simp)
    have hrestnd : rest.Nodup := (List.nodup_cons.mp hnd).2
    have hnotmem : idx ∉ rest := (List.nodup_cons.mp hnd).1
    cases deck with
    | nil =>
      have hb : ∀ i ∈ rest, i < (board.set idx none).length := by
        intro i hi
        rw [List.length_set]
        exact hbound i (List.mem_cons_of_mem _ hi)
      have key := ih (board.set idx none) [] hrestnd hb
      have hstep : replace_cards board [] (idx :: rest) =
          replace_cards (board.set idx none) [] rest := rfl
      refine ⟨?_, ?_, ?_⟩
      · intro j hj
        rw [hstep]
        match j with
        | 0 =>
          have := key.2.1 idx (by rw [List.length_set]; exact hidx) hnotmem
          rw [show (idx :: rest).getD 0 0 = idx from rfl, this,
            List.getElem?_set_self (by exact hidx)]
          simp
        | j + 1 =>
          have := key.1 j (by simpa using hj)
          simpa using this
      · intro m hm hmmem
        rw [hstep, key.2.1 m (by rw [List.length_set]; exact hm)
          (fun h => hmmem (List.mem_cons_of_mem _ h)),
          List.getElem?_set_ne (by rintro rfl; exact hmmem (List.mem_cons_self idx rest))]
      · rw [hstep, key.2.2]
        simp
    | cons d deck2 =>
      have hb : ∀ i ∈ rest, i < (board.set idx (some d)).length := by
        intro i hi
        rw [List.length_set]
        exact hbound i (List.mem_cons_of_mem _ hi)
      have key := ih (board.set idx (some d)) deck2 hrestnd hb
      have hstep : replace_cards board (d :: deck2) (idx :: rest) =
          replace_cards (board.set idx (some d)) deck2 rest := rfl
      refine ⟨?_, ?_, ?_⟩
      · intro j hj
        rw [hstep]
        match j with
        | 0 =>
          have := key.2.1 idx (by rw [List.length_set]; exact hidx) hnotmem
          rw [show (idx :: rest).getD 0 0 = idx from rfl, this,
            List.getElem?_set_self (by exact hidx)]
          simp
        | j + 1 =>
          have := key.1 j (by simpa using hj)
          simpa using this
      · intro m hm hmmem
        rw [hstep, key.2.1 m (by rw [List.length_set]; exact hm)
          (fun h => hmmem (List.mem_cons_of_mem _ h)),
          List.getElem?_set_ne (by rintro rfl; exact hmmem (List.mem_cons_self idx rest))]
      · rw [hstep, key.2.2]
        rfl

/-- C4: `find_one_set` scans all triples `i < j < k` in ascending
lexicographic order: it returns `none` exactly when no triple of distinct
in-range indices satisfies `is_set`; a returned triple is in range, satisfies
`is_set`, and no lexicographically smaller in-range triple does; and fewer
than three cards always yield `none`. -/
theorem c4_find_one_set_first_triple (cards : List Card) :
    (find_one_set cards = none ↔
      ∀ i j k, i < j → j < k → k < cards.length →
        is_set (cards.getD i default_card) (cards.getD j default_card)
          (cards.getD k default_card) = false) ∧
    (∀ i j k, find_one_set cards = some (i, j, k) →
      i < j ∧ j < k ∧ k < cards.length ∧
      is_set (cards.getD i default_card) (cards.getD j default_card)
        (cards.getD k default_card) = true ∧
      ∀ i2 j2 k2, i2 < j2 → j2 < k2 → k2 < cards.length →
        lex3 (i2, j2, k2) (i, j, k) →
        is_set (cards.getD i2 default_card) (cards.getD j2 default_card)
          (cards.getD k2 default_card) = false) ∧
    (cards.length < 3 → find_one_set cards = none) := by
  refine ⟨?_, ?_, ?_⟩
  · rw [find_one_set, List.find?_eq_none]
    constructor
    · intro h i j k h1 h2 h3
      have := h (i, j, k) (mem_triples.mpr ⟨h1, h2, h3⟩)
      simpa using this
    · intro h t ht
      have hm := mem_triples.mp ht
      obtain ⟨i, j, k⟩ := t
      simpa using h i j k hm.1 hm.2.1 hm.2.2
  · intro i j k hf
    have hmem := List.mem_of_find?_eq_some hf
    have hp := List.find?_some hf
    have hb := mem_triples.mp hmem
    refine ⟨hb.1, hb.2.1, hb.2.2, hp, ?_⟩
    intro i2 j2 k2 h1 h2 h3 hlex
    have hx : (i2, j2, k2) ∈ triples cards.length :=
      mem_triples.mpr ⟨h1, h2, h3⟩
    by_contra hfalse
    have hptrue :
        is_set (cards.getD i2 default_card) (cards.getD j2 default_card)
          (cards.getD k2 default_card) = true := by
      simpa using hfalse
    have hfirst := find?_first_of_pairwise (triples_pairwise_lex3 _) hf
      (i2, j2, k2) hx hptrue
    rcases hfirst with heq | hR
    · cases heq
      simp only [lex3] at hlex
      omega
    · simp only [lex3] at hR hlex
      omega
  · intro hlen
    rw [find_one_set, List.find?_eq_none]
    intro t ht
    have := mem_triples.mp ht
    exact (by omega : False).elim

/-- C10: `find_one_set` is the head of `find_all_sets` — in particular the
two agree on the first qualifying triple when one exists, and `find_one_set`
returns `none` exactly when `find_all_sets` returns the empty list. -/
theorem c10_find_one_set_refines_find_all_sets (cards : List Card) :
    find_one_set cards = (find_all_sets cards).head? ∧
    (find_one_set cards = none ↔ find_all_sets cards = []) := by
  have h := find?_eq_head?_filter
    (fun t : Nat × Nat × Nat =>
      is_set (cards.getD t.1 default_card) (cards.getD t.2.1 default_card)
        (cards.getD t.2.2 default_card))
    (triples cards.length)
  constructor
  · exact h
  · rw [show find_one_set cards = (find_all_sets cards).head? from h]
    exact List.head?_eq_none_iff

/-- Witness for C3, on the spec's scenario: a board of three cards, one card
left in the deck, `replace_cards` on indices `[0, 1, 2]`: slot 0 receives the
last deck card, slots 1 and 2 become `Empty`, and the deck is exhausted. -/
theorem c3_witness :
    ((replace_cards [some cardA, some cardB, some cardC] [cardD] [0, 1, 2]).1)[0]? =
        some (some cardD) ∧
    ((replace_cards [some cardA, some cardB, some cardC] [cardD] [0, 1, 2]).1)[1]? =
        some none ∧
    ((replace_cards [some cardA, some cardB, some cardC] [cardD] [0, 1, 2]).1)[2]? =
        some none ∧
    (replace_cards [some cardA, some cardB, some cardC] [cardD] [0, 1, 2]).2 = [] := by
  have h := c3_replace_processes_indices_in_order
    [some cardA, some cardB, some cardC] [cardD] [0, 1, 2]
    (by decide) (by intro i hi; fin_cases hi <;> decide)
  exact ⟨h.1 0 (by decide), h.1 1 (by decide), h.1 2 (by decide), h.2.2⟩

/-- C5: after every tick and every click processed in the Playing state, the
game moves to End exactly when `find_all_sets` on the non-empty board cards
is empty and the remaining deck is empty; otherwise it stays Playing. -/
theorem c5_end_transition (s : GState) (e : GameEvent) :
    ((playing_step s e).1 = Status.ended ↔
      find_all_sets (filtered_cards (playing_step s e).2.displayed_cards) = [] ∧
        (playing_step s e).2.remaining_deck = []) ∧
    ((playing_step s e).1 = Status.playing ↔
      ¬(find_all_sets (filtered_cards (playing_step s e).2.displayed_cards) = [] ∧
        (playing_step s e).2.remaining_deck = [])) := by
  cases e with
  | tick =>
    by_cases h : end_check (tick_update s) = true
    · have h2 := (end_check_iff (tick_update s)).mp h
      constructor <;> simp [playing_step, h, h2]
    · have h2 : ¬(find_all_sets (filtered_cards (tick_update s).displayed_cards) = [] ∧
          (tick_update s).remaining_deck = []) :=
        fun hc => h ((end_check_iff _).mpr hc)
      constructor <;> simp [playing_step, h, h2]
  | click idx =>
    by_cases h : end_check (click_update s idx) = true
    · have h2 := (end_check_iff (click_update s idx)).mp h
      constructor <;> simp [playing_step, h, h2]
    · have h2 : ¬(find_all_sets (filtered_cards (click_update s idx).displayed_cards) = [] ∧
          (click_update s idx).remaining_deck = []) :=
        fun hc => h ((end_check_iff _).mpr hc)
      constructor <;> simp [playing_step, h, h2]

/-- C6: a click in the Playing state toggles the slot's index in the
selection only when the slot holds a card; a selection completed to size 3
is evaluated at once — on a valid set the player scores, the three selected
slots are replaced and the timer resets — and is cleared either way.
(The selection has at most 2 entries while waiting for a third pick.) -/
theorem c6_click_selection (s : GState) (idx : Nat)
    (hsel : s.selected_cards.length ≤ 2) :
    (¬(idx < s.displayed_cards.length ∧
        (s.displayed_cards.getD idx none).isSome) →
      click_update s idx = s) ∧
    (idx < s.displayed_cards.length →
      (s.displayed_cards.getD idx none).isSome →
      (idx ∈ s.selected_cards →
        click_update s idx =
          { s with selected_cards := s.selected_cards.erase idx }) ∧
      (idx ∉ s.selected_cards → s.selected_cards.length ≤ 1 →
        click_update s idx =
          { s with selected_cards := s.selected_cards ++ [idx] }) ∧
      (idx ∉ s.selected_cards → s.selected_cards.length = 2 →
        (is_set
            (card_at s.displayed_cards ((s.selected_cards ++ [idx]).getD 0 0))
            (card_at s.displayed_cards ((s.selected_cards ++ [idx]).getD 1 0))
            (card_at s.displayed_cards ((s.selected_cards ++ [idx]).getD 2 0)) =
              true →
          click_update s idx =
            { s with
              displayed_cards :=
                (replace_cards s.displayed_cards s.remaining_deck
                  (s.selected_cards ++ [idx])).1,
              remaining_deck :=
                (replace_cards s.displayed_cards s.remaining_deck
                  (s.selected_cards ++ [idx])).2,
              player_score := s.player_score + 1, timer := s.home_timer,
              selected_cards := [] }) ∧
        (is_set
            (card_at s.displayed_cards ((s.selected_cards ++ [idx]).getD 0 0))
            (card_at s.displayed_cards ((s.selected_cards ++ [idx]).getD 1 0))
            (card_at s.displayed_cards ((s.selected_cards ++ [idx]).getD 2 0)) =
              false →
          click_update s idx = { s with selected_cards := [] }))) := by
  constructor
  · intro h
    rw [click_update, if_neg h]
  · intro h1 h2
    refine ⟨?_, ?_, ?_⟩
    · intro hmem
      have hlen : ¬(s.selected_cards.erase idx).length = 3 := by
        have := List.length_erase_of_mem hmem
        omega
      simp only [click_update]
      rw [if_pos ⟨h1, h2⟩, if_pos hmem, if_neg hlen]
    · intro hnmem hlen1
      have hlen : ¬(s.selected_cards ++ [idx]).length = 3 := by
        simp only [List.length_append, List.length_cons, List.length_nil]
        omega
      simp only [click_update]
      rw [if_pos ⟨h1, h2⟩, if_neg hnmem, if_neg hlen]
    · intro hnmem hlen2
      have hlen : (s.selected_cards ++ [idx]).length = 3 := by
        simp only [List.length_append, List.length_cons, List.length_nil]
        omega
      constructor
      · intro hset
        simp only [click_update]
        rw [if_pos ⟨h1, h2⟩, if_neg hnmem, if_pos hlen, if_pos hset]
      · intro hset
        simp only [click_update]
        rw [if_pos ⟨h1, h2⟩, if_neg hnmem, if_pos hlen,
          if_neg (by rw [hset]; simp)]

/-- Witness for C6: in a state with slots 0 and 1 already selected, clicking
slot 2 completes a valid set (`cardA, cardB, cardC`): the player scores, the
three slots are replaced from the one-card deck, the selection is cleared and
the timer resets. -/
theorem c6_witness :
    click_update
        ⟨[some cardA, some cardB, some cardC, some cardD], [cardE], [0, 1],
          0, 0, 7, 9⟩ 2 =
      ⟨[some cardE, none, none, some cardD], [], [], 1, 0, 9, 9⟩ := by
  have h := (c6_click_selection
    ⟨[some cardA, some cardB, some cardC, some cardD], [cardE], [0, 1],
      0, 0, 7, 9⟩ 2 (by decide)).2 (by decide) (by decide)
  have h2 := (h.2.2 (by decide) (by decide)).1 (by decide)
  exact h2.trans (by decide)

/-- C7: for any two deck cards `a` and `b` there is exactly one deck card
`c` with `is_set a b c`, and that card can coincide with `a` or `b` only in
the degenerate case `a = b`. -/
theorem c7_unique_completing_card (a : Card) (ha : a ∈ build_deck)
    (b : Card) (hb : b ∈ build_deck) :
    (∃! c, c ∈ build_deck ∧ is_set a b c = true) ∧
    (∀ c, c ∈ build_deck → is_set a b c = true → c = a ∨ c = b → a = b) := by
  have hna := (build_deck_shape ha).1
  have hnb := (build_deck_shape hb).1
  have hnt := third_number_range hna hnb
  have htmem : third_card a b ∈ build_deck := build_deck_mem _ _ _ hnt
  constructor
  · refine ⟨third_card a b, ⟨htmem, ?_⟩, ?_⟩
    · exact (is_set_iff_third hna hnb hnt).mpr ⟨rfl, rfl, rfl, rfl⟩
    · rintro c ⟨hcmem, hcset⟩
      have hnc := (build_deck_shape hcmem).1
      have h4 := (is_set_iff_third hna hnb hnc).mp hcset
      exact build_deck_attr_inj hcmem htmem h4.1 h4.2.1 h4.2.2.1 h4.2.2.2
  · intro c hcmem hcset hor
    have hnc := (build_deck_shape hcmem).1
    have h4 := (is_set_iff_third hna hnb hnc).mp hcset
    rcases hor with rfl | rfl
    · exact build_deck_attr_inj ha hb (third_color_fixed_left h4.1)
        (third_symbol_fixed_left h4.2.1) (third_shading_fixed_left h4.2.2.1)
        (third_number_fixed_left hna hnb h4.2.2.2)
    · exact build_deck_attr_inj ha hb (third_color_fixed_right h4.1)
        (third_symbol_fixed_right h4.2.1) (third_shading_fixed_right h4.2.2.1)
        (third_number_fixed_right hna hnb h4.2.2.2)

/-- Witness for C7: `cardA` and `cardB` are distinct deck cards; the card
completing them to a set (`cardC`) equals neither of them. -/
theorem c7_witness : ¬cardC = cardA ∧ ¬cardC = cardB := by
  have h := (c7_unique_completing_card cardA
    (build_deck_mem .red .diamond .empty (Or.inl rfl))
    cardB (build_deck_mem .green .squiggle .filled (Or.inr (Or.inl rfl)))).2
    cardC (build_deck_mem .purple .oval .shaded (Or.inr (Or.inr rfl)))
    (by decide)
  constructor
  · intro he
    exact absurd (h (Or.inl he)) (by decide)
  · intro he
    exact absurd (h (Or.inr he)) (by decide)

/-- C9: the deck holds exactly 81 cards, no two of which agree on all four
attributes, and every combination of the three 3-valued attributes with a
number 1-3 appears. -/
theorem c9_deck_is_81_distinct_combinations :
    build_deck.length = 81 ∧
    (∀ c1 ∈ build_deck, ∀ c2 ∈ build_deck,
      c1.color = c2.color → c1.symbol = c2.symbol → c1.shading = c2.shading →
      c1.number = c2.number → c1 = c2) ∧
    (∀ (col : Color) (sym : Symbol) (shd : Shading) (n : Int),
      n = 1 ∨ n = 2 ∨ n = 3 →
      ∃ c ∈ build_deck, c.color = col ∧ c.symbol = sym ∧ c.shading = shd ∧
        c.number = n) := by
  refine ⟨by decide, ?_, ?_⟩
  · intro c1 h1 c2 h2 hcol hsym hshd hnum
    exact build_deck_attr_inj h1 h2 hcol hsym hshd hnum
  · intro col sym shd n hn
    exact ⟨⟨col, sym, shd, n, card_filename col sym shd n⟩,
      build_deck_mem col sym shd hn, rfl, rfl, rfl, rfl⟩

end SetGame
